import Mathlib

/-!
Verification of the CoinKrazy wager settlement core: a shallow embedding of
the poker table service, the sports parlay service and the sweepstakes
eligibility check, together with theorems settling the specified properties.

Monetary amounts are embedded as rationals.  The persistent store
(user balances, seats, hands, parlays, legs, transactions, events) is
embedded as explicit state passed through each operation; fallible
operations return an `Except` value, and a thrown error leaves the state
as it was before the call (in the source every throw happens before any
write of the same operation, except where noted in comments).
-/

namespace CoinKrazy

/-- Transaction kinds written to the transactions table by the services. -/
inductive TxKind where
  | bet
  | win
  deriving DecidableEq, Repr

/-- Poker table status column. -/
inductive TableStatus where
  | open_
  | playing
  | closed
  deriving DecidableEq, Repr

/-- Poker hand status column. -/
inductive HandStatus where
  | preFlop
  | flop
  | turn
  | river
  | finished
  deriving DecidableEq, Repr

/-- Sports event status. -/
inductive EventStatus where
  | scheduled
  | inProgress
  | completed
  | postponed
  deriving DecidableEq, Repr

/-- Sports parlay status column. -/
inductive ParlayStatus where
  | pending
  | won
  | lost
  | pendingResults
  deriving DecidableEq, Repr

/-- Result column of a parlay leg (null when unresolved). -/
inductive LegResult where
  | won
  | lost
  | pending
  deriving DecidableEq, Repr

/-- Typed counterpart of the errors the services raise.  The source throws
plain `Error` objects with fixed messages; `jsTypeError` stands for an
uncaught TypeError raised by reading a property of an undefined row. -/
inductive Err where
  | tableNotFound
  | invalidBuyIn
  | tableFull
  | insufficientBuyIn
  | playerNotFound
  | invalidWager
  | insufficientParlay
  | legEventNotFound (eventId : String)
  | eventNotFound
  | invalidLegs
  | invalidWagerAmount
  | invalidCashOut
  | invalidBuyInAmount
  | missingFields
  | jsTypeError
  deriving DecidableEq, Repr

/-- A row of the poker_tables relation. -/
structure PokerTable where
  tableId : Nat
  name : String
  smallBlind : Rat
  bigBlind : Rat
  maxPlayers : Nat
  minBuyIn : Rat
  maxBuyIn : Rat
  status : TableStatus
  deriving DecidableEq, Repr

/-- A row of the poker_players relation (one seat at a table). -/
structure PokerPlayer where
  tableId : Nat
  userId : Nat
  stack : Rat
  position : String
  isActive : Bool
  totalWins : Nat
  deriving DecidableEq, Repr

/-- A row of the poker_hands relation. -/
structure PokerHand where
  handId : Nat
  tableId : Nat
  smallBlindAmount : Rat
  bigBlindAmount : Rat
  pot : Rat
  community : List String
  status : HandStatus
  winnerId : Option Nat
  winningHand : Option String
  deriving DecidableEq, Repr

/-- An event held in the in-memory event cache of the sports service. -/
structure SportsEvent where
  eventId : String
  sport : String
  homeTeam : String
  awayTeam : String
  status : EventStatus
  homeScore : Option Rat
  awayScore : Option Rat
  spread : Option Rat
  overUnder : Option Rat
  moneylineHome : Option Rat
  moneylineAway : Option Rat
  deriving DecidableEq, Repr

/-- A row of the sports_events relation (written by updateEventScore). -/
structure DbEventRow where
  eventId : String
  sport : String
  homeTeam : String
  awayTeam : String
  homeScore : Rat
  awayScore : Rat
  status : EventStatus
  deriving DecidableEq, Repr

/-- A row of the sports_parlays relation. -/
structure SportsParlay where
  parlayId : Nat
  userId : Nat
  totalWager : Rat
  potentialPayout : Rat
  status : ParlayStatus
  deriving DecidableEq, Repr

/-- A row of the parlay_legs relation; result is null until resolution. -/
structure ParlayLegRow where
  legId : Nat
  parlayId : Nat
  eventId : String
  pick : String
  betType : String
  odds : Rat
  result : Option LegResult
  deriving DecidableEq, Repr

/-- A caller-supplied parlay leg as it arrives in the request body. -/
structure ParlayLegInput where
  eventId : String
  pick : String
  betType : String
  odds : Rat
  deriving DecidableEq, Repr

/-- A row of the transactions relation. -/
structure Txn where
  userId : Nat
  kind : TxKind
  amount : Rat
  description : String
  deriving DecidableEq, Repr

/-- The whole persistent store plus the event cache and an id counter that
stands for the timestamp-plus-random id generation of the source. -/
structure State where
  nextId : Nat
  balances : List (Nat × Rat)
  transactions : List Txn
  tables : List PokerTable
  seats : List PokerPlayer
  hands : List PokerHand
  eventCache : List SportsEvent
  dbEvents : List DbEventRow
  parlays : List SportsParlay
  parlayLegs : List ParlayLegRow
  deriving DecidableEq, Repr

/-- SELECT sweeps_coins FROM user_balances WHERE user_id = u (first row). -/
def balOf : List (Nat × Rat) → Nat → Option Rat
  | [], _ => none
  | e :: t, u => if e.1 == u then some e.2 else balOf t u

/-- UPDATE user_balances SET sweeps_coins = f(sweeps_coins) WHERE user_id = u. -/
def updBal : List (Nat × Rat) → Nat → (Rat → Rat) → List (Nat × Rat)
  | [], _, _ => []
  | e :: t, u, f => (if e.1 == u then (e.1, f e.2) else e) :: updBal t u f

/-- SELECT * FROM poker_tables WHERE table_id = t (first row). -/
def findTable (s : State) (tableId : Nat) : Option PokerTable :=
  s.tables.find? (fun t => t.tableId == tableId)

/-- SELECT * FROM poker_hands WHERE hand_id = h (first row). -/
def findHand (s : State) (handId : Nat) : Option PokerHand :=
  s.hands.find? (fun h => h.handId == handId)

/-- COUNT(*) FROM poker_players WHERE table_id = t AND is_active = TRUE. -/
def activePlayerCount (s : State) (tableId : Nat) : Nat :=
  (s.seats.filter (fun p => p.tableId == tableId && p.isActive)).length

/-- Number of active seats held by one user at one table. -/
def userActiveSeatCount (s : State) (tableId userId : Nat) : Nat :=
  (s.seats.filter (fun p => p.tableId == tableId && p.userId == userId && p.isActive)).length

/-- The state after an operation: the new state on success, the unchanged
pre-state on a thrown error. -/
def postOf {α : Type} (s : State) (r : Except Err (α × State)) : State :=
  match r with
  | .ok pr => pr.2
  | .error _ => s

/-- True when the operation returned without throwing. -/
def isOk {α : Type} : Except Err α → Bool
  | .ok _ => true
  | .error _ => false

/-- PokerService.createTable: derives the buy-in bounds from the big blind
and inserts an open table. -/
def createTable (s : State) (name : String) (smallBlind bigBlind : Rat)
    (maxPlayers : Nat) : PokerTable × State :=
  let t : PokerTable :=
    ⟨s.nextId, name, smallBlind, bigBlind, maxPlayers,
      bigBlind * 20, bigBlind * 500, .open_⟩
  (t, { s with nextId := s.nextId + 1, tables := s.tables ++ [t] })

/-- PokerService.joinTable: table lookup, buy-in bounds, capacity and balance
checks, then seat insert, balance debit and transaction log. -/
def joinTable (s : State) (tableId userId : Nat) (buyIn : Rat) :
    Except Err (Bool × State) :=
  match findTable s tableId with
  | none => .error .tableNotFound
  | some table =>
    if buyIn < table.minBuyIn ∨ buyIn > table.maxBuyIn then .error .invalidBuyIn
    else if table.maxPlayers ≤ activePlayerCount s tableId then .error .tableFull
    else
      match balOf s.balances userId with
      | none => .error .insufficientBuyIn
      | some bal =>
        if bal < buyIn then .error .insufficientBuyIn
        else
          let seat : PokerPlayer := ⟨tableId, userId, buyIn, "under-the-gun", true, 0⟩
          .ok (true,
            { s with
              seats := s.seats ++ [seat],
              balances := updBal s.balances userId (fun b => b - buyIn),
              transactions := s.transactions ++
                [⟨userId, .bet, buyIn, "Poker table buy-in"⟩] })

/-- PokerService.leaveTable: the UPDATE matches every seat row of the user at
the table (the source WHERE clause has no is_active condition), raises only
when no row matched, then credits the caller-supplied cash out. -/
def leaveTable (s : State) (tableId userId : Nat) (cashOut : Rat) :
    Except Err (Bool × State) :=
  let matched := s.seats.filter (fun p => p.tableId == tableId && p.userId == userId)
  if matched.isEmpty then .error .playerNotFound
  else
    .ok (true,
      { s with
        seats := s.seats.map (fun p =>
          if p.tableId == tableId && p.userId == userId then
            { p with isActive := false }
          else p),
        balances := updBal s.balances userId (fun b => b + cashOut),
        transactions := s.transactions ++
          [⟨userId, .win, cashOut, "Poker table cash out"⟩] })

/-- PokerService.dealHand: the class declares no pool field and getInstance
ignores the injected pool, so the first statement, this.pool.query, reads
query off undefined — an uncaught TypeError on every call, before any check
or write.  The intended body (blind-sum pot, pre-flop hand with empty
community cards) is dead code, so no hand is ever inserted. -/
def dealHand (s : State) (tableId : Nat) : Except Err (PokerHand × State) :=
  .error .jsTypeError

/-- PokerService.completeHand: like dealHand, its first statement is
this.pool.query with this.pool undefined (the class has no pool field), so
every call throws a TypeError before the hand fetch, the finished stamp, the
pot credit, the transaction log or the total_wins bump.  None of those
writes can ever happen. -/
def completeHand (s : State) (handId winnerId : Nat) (winningHand : String) :
    Except Err (Unit × State) :=
  .error .jsTypeError

/-- SportsParleyService.getEvent: read-through of the event cache. -/
def getEvent (s : State) (eventId : String) : Option SportsEvent :=
  s.eventCache.find? (fun e => e.eventId == eventId)

/-- The payout loop of createParlay: for each leg in order, require its event
to exist in the cache and multiply the accumulator by odds / 100. -/
def computePayout (s : State) (legs : List ParlayLegInput) (acc : Rat) :
    Except Err Rat :=
  match legs with
  | [] => .ok acc
  | leg :: rest =>
    match getEvent s leg.eventId with
    | none => .error (.legEventNotFound leg.eventId)
    | some _ => computePayout s rest (acc * (leg.odds / 100))

/-- The leg-insert loop of createParlay: one parlay_legs row per leg, in leg
order, with a fresh id each and a null result column. -/
def insertLegs (parlayId : Nat) (legs : List ParlayLegInput) (nextId : Nat) :
    List ParlayLegRow × Nat :=
  match legs with
  | [] => ([], nextId)
  | leg :: rest =>
    let row : ParlayLegRow :=
      ⟨nextId, parlayId, leg.eventId, leg.pick, leg.betType, leg.odds, none⟩
    let (rows, n) := insertLegs parlayId rest (nextId + 1)
    (row :: rows, n)

/-- SportsParleyService.createParlay: wager check, balance check, payout loop
with per-leg event lookup, then parlay insert, leg inserts, balance debit and
transaction log.  Every throw precedes every write. -/
def createParlay (s : State) (userId : Nat) (legs : List ParlayLegInput)
    (totalWager : Rat) : Except Err (SportsParlay × State) :=
  if totalWager ≤ 0 then .error .invalidWager
  else
    match balOf s.balances userId with
    | none => .error .insufficientParlay
    | some bal =>
      if bal < totalWager then .error .insufficientParlay
      else
        match computePayout s legs totalWager with
        | .error e => .error e
        | .ok payout =>
          let parlay : SportsParlay := ⟨s.nextId, userId, totalWager, payout, .pending⟩
          let (rows, n) := insertLegs s.nextId legs (s.nextId + 1)
          .ok (parlay,
            { s with
              nextId := n,
              parlays := s.parlays ++ [parlay],
              parlayLegs := s.parlayLegs ++ rows,
              balances := updBal s.balances userId (fun b => b - totalWager),
              transactions := s.transactions ++
                [⟨userId, .bet, totalWager, "Sports parlay bet"⟩] })

/-- SELECT * FROM parlay_legs WHERE parlay_id = p. -/
def legsOfParlay (s : State) (parlayId : Nat) : List ParlayLegRow :=
  s.parlayLegs.filter (fun l => l.parlayId == parlayId)

/-- Whether some leg of the parlay references the event. -/
def parlayTouchesEvent (s : State) (parlayId : Nat) (eventId : String) : Bool :=
  s.parlayLegs.any (fun l => l.parlayId == parlayId && l.eventId == eventId)

/-- The candidate query of resolveParlaysForEvent: pending parlays with at
least one leg on the event. -/
def resolveCandidates (s : State) (eventId : String) : List SportsParlay :=
  s.parlays.filter (fun p => p.status == .pending && parlayTouchesEvent s p.parlayId eventId)

/-- One iteration of the resolution loop: re-reads the legs of the candidate;
when every leg carries a result, stamps the parlay won or lost and, on won,
credits the captured potential payout and logs the win. -/
def resolveOneParlay (st : State) (p : SportsParlay) : State :=
  let pl := legsOfParlay st p.parlayId
  if pl.all (fun l => l.result.isSome) then
    let allLegsWon := pl.all (fun l => l.result == some .won)
    let newStatus : ParlayStatus := if allLegsWon then .won else .lost
    let st1 : State := { st with parlays := st.parlays.map (fun q =>
      if q.parlayId == p.parlayId then { q with status := newStatus } else q) }
    if allLegsWon then
      { st1 with
        balances := updBal st1.balances p.userId (fun b => b + p.potentialPayout),
        transactions := st1.transactions ++
          [⟨p.userId, .win, p.potentialPayout, "Sports parlay win"⟩] }
    else st1
  else st

/-- SportsParleyService.resolveParlaysForEvent: a no-op unless the cached
event is completed; otherwise folds the resolution loop over the candidates
fetched up front. -/
def resolveParlaysForEvent (s : State) (eventId : String) : State :=
  match getEvent s eventId with
  | none => s
  | some ev =>
    if ev.status == .completed then
      (resolveCandidates s eventId).foldl resolveOneParlay s
    else s

/-- SportsParleyService.updateEventScore: updates the cached event scores
(the cached status is untouched), upserts the sports_events row with status
in-progress, then calls resolveParlaysForEvent. -/
def updateEventScore (s : State) (eventId : String) (homeScore awayScore : Rat) :
    Except Err (Unit × State) :=
  match getEvent s eventId with
  | none => .error .eventNotFound
  | some ev =>
    let s1 : State := { s with eventCache := s.eventCache.map (fun e =>
      if e.eventId == eventId then
        { e with homeScore := some homeScore, awayScore := some awayScore }
      else e) }
    let s2 : State :=
      if s1.dbEvents.any (fun r => r.eventId == eventId) then
        { s1 with dbEvents := s1.dbEvents.map (fun r =>
          if r.eventId == eventId then
            { r with homeScore := homeScore, awayScore := awayScore,
                     status := .inProgress }
          else r) }
      else
        { s1 with dbEvents := s1.dbEvents ++
          [⟨eventId, ev.sport, ev.homeTeam, ev.awayTeam, homeScore, awayScore,
            .inProgress⟩] }
    .ok ((), resolveParlaysForEvent s2 eventId)

/-- The hardcoded sample events the sports service seeds its cache with. -/
def mockEvents : List SportsEvent :=
  [⟨"nfl_001", "nfl", "Kansas City Chiefs", "Buffalo Bills", .scheduled,
      none, none, some (-7/2), some (95/2), some (-170), some 145⟩,
   ⟨"nba_001", "nba", "Los Angeles Lakers", "Denver Nuggets", .scheduled,
      none, none, some (-2), some 218, some (-115), some (-105)⟩,
   ⟨"mlb_001", "mlb", "New York Yankees", "Boston Red Sox", .scheduled,
      none, none, some (-3/2), some (17/2), some (-140), some 120⟩]

/-- A fresh process: empty store except the seeded event cache.  Balance rows
are created outside this repository, so the initial balances are a parameter. -/
def initState (balances : List (Nat × Rat)) : State :=
  ⟨0, balances, [], [], [], [], mockEvents, [], [], []⟩

/-- POST /tables: the route rejects a missing name and falsy blinds, then
calls createTable with maxPlayers defaulted to 6 when falsy. -/
def createTableRoute (s : State) (name : String) (smallBlind bigBlind : Rat)
    (maxPlayers : Nat) : Except Err (PokerTable × State) :=
  if name == "" || smallBlind == 0 || bigBlind == 0 then .error .missingFields
  else .ok (createTable s name smallBlind bigBlind
    (if maxPlayers == 0 then 6 else maxPlayers))

/-- POST /tables/:tableId/join: the route rejects a non-positive buy-in. -/
def joinTableRoute (s : State) (tableId userId : Nat) (buyIn : Rat) :
    Except Err (Bool × State) :=
  if buyIn ≤ 0 then .error .invalidBuyInAmount
  else joinTable s tableId userId buyIn

/-- POST /tables/:tableId/leave: the route rejects a non-positive cash out. -/
def leaveTableRoute (s : State) (tableId userId : Nat) (cashOut : Rat) :
    Except Err (Bool × State) :=
  if cashOut ≤ 0 then .error .invalidCashOut
  else leaveTable s tableId userId cashOut

/-- POST /hands/:handId/complete: the route rejects a falsy winner id or an
empty winning hand description. -/
def completeHandRoute (s : State) (handId winnerId : Nat) (winningHand : String) :
    Except Err (Unit × State) :=
  if winnerId == 0 || winningHand == "" then .error .missingFields
  else completeHand s handId winnerId winningHand

/-- POST /parlays: the route rejects an empty leg list, then a non-positive
wager, before handing over to the service. -/
def createParlayRoute (s : State) (userId : Nat) (legs : List ParlayLegInput)
    (totalWager : Rat) : Except Err (SportsParlay × State) :=
  if legs.isEmpty then .error .invalidLegs
  else if totalWager ≤ 0 then .error .invalidWagerAmount
  else createParlay s userId legs totalWager

/-- The states the system can be in: an initial state, or the successful
outcome of any route-level write operation on a reachable state.  A thrown
error leaves the state unchanged, so failed calls need no constructor; the
dealHand and completeHand steps can never fire, since those operations
always throw.  Initial balance rows are one per user: the user_balances
relation is keyed by the user identifier. -/
inductive Reachable : State → Prop where
  | init (balances : List (Nat × Rat))
      (hkeys : balances.Pairwise (fun a b => a.1 ≠ b.1)) :
      Reachable (initState balances)
  | createTableStep {s s' : State} (name : String) (sb bb : Rat) (mp : Nat)
      (t : PokerTable) : Reachable s →
      createTableRoute s name sb bb mp = .ok (t, s') → Reachable s'
  | joinTableStep {s s' : State} (tableId userId : Nat) (buyIn : Rat) (r : Bool) :
      Reachable s → joinTableRoute s tableId userId buyIn = .ok (r, s') →
      Reachable s'
  | leaveTableStep {s s' : State} (tableId userId : Nat) (cashOut : Rat) (r : Bool) :
      Reachable s → leaveTableRoute s tableId userId cashOut = .ok (r, s') →
      Reachable s'
  | dealHandStep {s s' : State} (tableId : Nat) (h : PokerHand) :
      Reachable s → dealHand s tableId = .ok (h, s') → Reachable s'
  | completeHandStep {s s' : State} (handId winnerId : Nat) (winningHand : String) :
      Reachable s → completeHandRoute s handId winnerId winningHand = .ok ((), s') →
      Reachable s'
  | createParlayStep {s s' : State} (userId : Nat) (legs : List ParlayLegInput)
      (totalWager : Rat) (p : SportsParlay) : Reachable s →
      createParlayRoute s userId legs totalWager = .ok (p, s') → Reachable s'
  | updateEventScoreStep {s s' : State} (eventId : String) (homeScore awayScore : Rat) :
      Reachable s → updateEventScore s eventId homeScore awayScore = .ok ((), s') →
      Reachable s'

/-- A user row as fetched by the eligibility check; state and country are
nullable columns and the birth year stands for the date of birth (the source
computes age as a plain difference of calendar years). -/
structure UserRow where
  birthYear : Int
  state : Option String
  country : Option String
  deriving DecidableEq, Repr

/-- The result record of SweepstakesService.checkEligibility. -/
structure ComplianceCheck where
  userAge : Int
  isEligible : Bool
  reason : Option String
  deriving DecidableEq, Repr

/-- The fixed ineligible-state list of the sweepstakes service. -/
def ineligibleStates : List String := ["MT", "SC", "TN", "VT"]

/-- The fixed eligible-country list of the sweepstakes service. -/
def eligibleCountries : List String := ["US", "CA"]

/-- age >= 18 where age is the difference of calendar years. -/
def isAgeEligible (u : UserRow) (todayYear : Int) : Bool :=
  decide (18 ≤ todayYear - u.birthYear)

/-- The state check: a null state upper-cases to undefined, which the
includes call reports as absent, so a null state passes. -/
def isStateEligible (u : UserRow) : Bool :=
  !(match u.state with
    | some st => ineligibleStates.contains st.toUpper
    | none => false)

/-- The country the check uses: a null country, and the falsy empty string,
default to US before membership is tested. -/
def normCountry (u : UserRow) : String :=
  match u.country with
  | none => "US"
  | some c => if c.toUpper == "" then "US" else c.toUpper

/-- The country check of checkEligibility. -/
def isCountryEligible (u : UserRow) : Bool :=
  eligibleCountries.contains (normCountry u)

/-- How a nullable state renders inside a template literal. -/
def stateDisplay (u : UserRow) : String :=
  match u.state with
  | some st => st
  | none => "null"

/-- SweepstakesService.checkEligibility on a fetched user row: the three
checks and the priority-ordered reason string. -/
def checkEligibility (u : UserRow) (todayYear : Int) : ComplianceCheck :=
  let age := todayYear - u.birthYear
  let ageOk := isAgeEligible u todayYear
  let stateOk := isStateEligible u
  let countryOk := isCountryEligible u
  let reason : Option String :=
    if !ageOk then some "Must be 18+ years old"
    else if !stateOk then some ("Sweepstakes not available in " ++ stateDisplay u)
    else if !countryOk then some "Only available in US and Canada"
    else none
  ⟨age, ageOk && stateOk && countryOk, reason⟩

/-- The state written by updateEventScore before resolution is invoked. -/
def scoreUpdatedState (s : State) (eventId : String) (homeScore awayScore : Rat)
    (ev : SportsEvent) : State :=
  let s1 : State := { s with eventCache := s.eventCache.map (fun e =>
    if e.eventId == eventId then
      { e with homeScore := some homeScore, awayScore := some awayScore }
    else e) }
  if s1.dbEvents.any (fun r => r.eventId == eventId) then
    { s1 with dbEvents := s1.dbEvents.map (fun r =>
      if r.eventId == eventId then
        { r with homeScore := homeScore, awayScore := awayScore,
                 status := .inProgress }
      else r) }
  else
    { s1 with dbEvents := s1.dbEvents ++
      [⟨eventId, ev.sport, ev.homeTeam, ev.awayTeam, homeScore, awayScore,
        .inProgress⟩] }

/-- The two-leg example of the specification: odds 150 and 120. -/
def demoLegs : List ParlayLegInput :=
  [⟨"nfl_001", "home", "moneyline", 150⟩, ⟨"nba_001", "away", "moneyline", 120⟩]

/-- The state used to refute C4: the only seat of user 1 at table 0 is
already inactive. -/
def c4CexState : State :=
  { initState [(1, 0)] with seats := [⟨0, 1, 40, "under-the-gun", false, 0⟩] }

/-- A state with one active seat of user 1 at table 0, for the C4 witness. -/
def c4WitState : State :=
  { initState [(1, 0)] with seats := [⟨0, 1, 40, "under-the-gun", true, 0⟩] }

/-- The concrete input of C5: hand 0 is already finished with pot 15 and
winner 2, whose balance is 10. -/
def c5CexState : State :=
  { initState [(2, 10)] with
    hands := [⟨0, 0, 1, 2, 15, [], .finished, some 2, some "pair"⟩] }

/-- The table of the C6 trace: blinds 1 and 2, buy-in bounds 40 and 1000. -/
def c6Table : PokerTable := ⟨0, "t", 1, 2, 6, 2 * 20, 2 * 500, .open_⟩

/-- The seat inserted by each successful join of user 1 at table 0. -/
def c6Seat : PokerPlayer := ⟨0, 1, 40, "under-the-gun", true, 0⟩

/-- State after creating the C6 table from a fresh process. -/
def c6State1 : State :=
  { initState [(1, 100)] with nextId := 1, tables := [c6Table] }

/-- State after user 1 joins table 0 once with a buy-in of 40. -/
def c6State2 : State :=
  { c6State1 with
    seats := [c6Seat],
    balances := [(1, 100 - 40)],
    transactions := [⟨1, .bet, 40, "Poker table buy-in"⟩] }

/-- State after user 1 joins table 0 a second time with a buy-in of 40. -/
def c6State3 : State :=
  { c6State2 with
    seats := [c6Seat, c6Seat],
    balances := [(1, 100 - 40 - 40)],
    transactions := [⟨1, .bet, 40, "Poker table buy-in"⟩,
                     ⟨1, .bet, 40, "Poker table buy-in"⟩] }

/-- The first seeded sample event, as held in the fresh event cache. -/
def nflEvent : SportsEvent :=
  ⟨"nfl_001", "nfl", "Kansas City Chiefs", "Buffalo Bills", .scheduled,
    none, none, some (-7/2), some (95/2), some (-170), some 145⟩

/-- A completed sample event for exercising parlay resolution. -/
def c2Event : SportsEvent :=
  ⟨"nfl_001", "nfl", "Kansas City Chiefs", "Buffalo Bills", .completed,
    some 21, some 17, none, none, none, none⟩

/-- A pending single-leg parlay of user 7 with potential payout 18. -/
def c2Parlay : SportsParlay := ⟨0, 7, 10, 18, .pending⟩

/-- The single leg of the parlay above, resolved won. -/
def c2Leg : ParlayLegRow := ⟨1, 0, "nfl_001", "home", "moneyline", 150, some .won⟩

/-- A state ready for resolution: completed event, pending parlay, leg won. -/
def c2State : State :=
  { initState [(7, 5)] with
    eventCache := [c2Event], parlays := [c2Parlay], parlayLegs := [c2Leg] }


instance {ε α : Type} [DecidableEq ε] [DecidableEq α] : DecidableEq (Except ε α) :=
  fun a b =>
    match a, b with
    | .ok x, .ok y =>
      if h : x = y then .isTrue (by rw [h]) else
        .isFalse (fun hc => h (Except.ok.inj hc))
    | .error x, .error y =>
      if h : x = y then .isTrue (by rw [h]) else
        .isFalse (fun hc => h (Except.error.inj hc))
    | .ok _, .error _ => .isFalse (fun hc => Except.noConfusion hc)
    | .error _, .ok _ => .isFalse (fun hc => Except.noConfusion hc)

theorem balOf_updBal_self (bs : List (Nat × Rat)) (u : Nat) (f : Rat → Rat) :
    balOf (updBal bs u f) u = (balOf bs u).map f := by
  induction bs with
  | nil => rfl
  | cons e t ih =>
    cases he : (e.1 == u) with
    | true => simp [balOf, updBal, he]
    | false => simp [balOf, updBal, he, ih]

theorem mem_updBal {bs : List (Nat × Rat)} {u : Nat} {f : Rat → Rat} {p : Nat × Rat}
    (hp : p ∈ updBal bs u f) :
    p ∈ bs ∨ ∃ q, q ∈ bs ∧ q.1 = u ∧ p = (q.1, f q.2) := by
  induction bs with
  | nil => cases hp
  | cons e t ih =>
    cases he : (e.1 == u) with
    | true =>
      rw [updBal, if_pos he] at hp
      rcases List.mem_cons.mp hp with h | h
      · exact Or.inr ⟨e, List.mem_cons_self e t, by simpa using he, h⟩
      · rcases ih h with h' | ⟨q, hq, hqu, hpq⟩
        · exact Or.inl (List.mem_cons_of_mem e h')
        · exact Or.inr ⟨q, List.mem_cons_of_mem e hq, hqu, hpq⟩
    | false =>
      rw [updBal, if_neg (by simp [he])] at hp
      rcases List.mem_cons.mp hp with h | h
      · exact Or.inl (h ▸ List.mem_cons_self e t)
      · rcases ih h with h' | ⟨q, hq, hqu, hpq⟩
        · exact Or.inl (List.mem_cons_of_mem e h')
        · exact Or.inr ⟨q, List.mem_cons_of_mem e hq, hqu, hpq⟩

theorem updBal_nonneg {bs : List (Nat × Rat)} {u : Nat} {f : Rat → Rat}
    (h : ∀ p ∈ bs, 0 ≤ p.2) (hf : ∀ b : Rat, 0 ≤ b → 0 ≤ f b) :
    ∀ p ∈ updBal bs u f, 0 ≤ p.2 := by
  intro p hp
  rcases mem_updBal hp with h' | ⟨q, hq, _, hpq⟩
  · exact h p h'
  · rw [hpq]
    exact hf q.2 (h q hq)

theorem balOf_of_mem {bs : List (Nat × Rat)} {u : Nat} {q : Nat × Rat}
    (hkeys : bs.Pairwise (fun a b => a.1 ≠ b.1)) (hq : q ∈ bs) (hu : q.1 = u) :
    balOf bs u = some q.2 := by
  induction bs with
  | nil => cases hq
  | cons e t ih =>
    rcases List.mem_cons.mp hq with h | h
    · subst h
      rw [balOf, if_pos (by simp [hu])]
    · have hne : e.1 ≠ u := by
        intro he
        exact (List.pairwise_cons.mp hkeys).1 q h (he.trans hu.symm)
      rw [balOf, if_neg (by simp [hne])]
      exact ih (List.pairwise_cons.mp hkeys).2 h

theorem updBal_sub_nonneg {bs : List (Nat × Rat)} {u : Nat} {a v : Rat}
    (hkeys : bs.Pairwise (fun x y => x.1 ≠ y.1))
    (h : ∀ p ∈ bs, 0 ≤ p.2) (hv : balOf bs u = some v) (hav : a ≤ v) :
    ∀ p ∈ updBal bs u (fun b => b - a), 0 ≤ p.2 := by
  intro p hp
  rcases mem_updBal hp with h' | ⟨q, hq, hqu, hpq⟩
  · exact h p h'
  · have : balOf bs u = some q.2 := balOf_of_mem hkeys hq hqu
    rw [this] at hv
    have hqv : q.2 = v := Option.some.inj hv
    rw [hpq]
    simp only
    rw [hqv]
    linarith

theorem joinTable_ok {s s' : State} {tableId userId : Nat} {buyIn : Rat} {r : Bool}
    (h : joinTable s tableId userId buyIn = .ok (r, s')) :
    ∃ bal, balOf s.balances userId = some bal ∧ buyIn ≤ bal ∧ r = true ∧
      s' = { s with
        seats := s.seats ++ [⟨tableId, userId, buyIn, "under-the-gun", true, 0⟩],
        balances := updBal s.balances userId (fun b => b - buyIn),
        transactions := s.transactions ++
          [⟨userId, .bet, buyIn, "Poker table buy-in"⟩] } := by
  unfold joinTable at h
  cases hft : findTable s tableId with
  | none => rw [hft] at h; exact Except.noConfusion h
  | some table =>
    rw [hft] at h
    simp only at h
    by_cases h1 : buyIn < table.minBuyIn ∨ buyIn > table.maxBuyIn
    · rw [if_pos h1] at h; exact Except.noConfusion h
    · rw [if_neg h1] at h
      by_cases h2 : table.maxPlayers ≤ activePlayerCount s tableId
      · rw [if_pos h2] at h; exact Except.noConfusion h
      · rw [if_neg h2] at h
        cases hb : balOf s.balances userId with
        | none => rw [hb] at h; exact Except.noConfusion h
        | some bal =>
          rw [hb] at h
          simp only at h
          by_cases h3 : bal < buyIn
          · rw [if_pos h3] at h; exact Except.noConfusion h
          · rw [if_neg h3] at h
            simp only [Except.ok.injEq, Prod.mk.injEq] at h
            exact ⟨bal, rfl, le_of_not_lt h3, h.1.symm, h.2.symm⟩

theorem leaveTable_ok {s s' : State} {tableId userId : Nat} {cashOut : Rat} {r : Bool}
    (h : leaveTable s tableId userId cashOut = .ok (r, s')) :
    r = true ∧
      s' = { s with
        seats := s.seats.map (fun p =>
          if p.tableId == tableId && p.userId == userId then
            { p with isActive := false }
          else p),
        balances := updBal s.balances userId (fun b => b + cashOut),
        transactions := s.transactions ++
          [⟨userId, .win, cashOut, "Poker table cash out"⟩] } := by
  unfold leaveTable at h
  by_cases h1 :
      (s.seats.filter (fun p => p.tableId == tableId && p.userId == userId)).isEmpty = true
  · rw [if_pos h1] at h; exact Except.noConfusion h
  · rw [if_neg h1] at h
    simp only [Except.ok.injEq, Prod.mk.injEq] at h
    exact ⟨h.1.symm, h.2.symm⟩

theorem leaveTable_err {s : State} {tableId userId : Nat} {cashOut : Rat}
    (h : leaveTable s tableId userId cashOut = .error .playerNotFound) :
    (s.seats.filter (fun p => p.tableId == tableId && p.userId == userId)).isEmpty = true := by
  unfold leaveTable at h
  by_cases h1 :
      (s.seats.filter (fun p => p.tableId == tableId && p.userId == userId)).isEmpty = true
  · exact h1
  · rw [if_neg h1] at h; exact Except.noConfusion h

theorem dealHand_never_ok {s : State} {tableId : Nat} {pr : PokerHand × State}
    (h : dealHand s tableId = .ok pr) : False :=
  Except.noConfusion h

theorem completeHand_never_ok {s : State} {handId winnerId : Nat} {winningHand : String}
    {pr : Unit × State} (h : completeHand s handId winnerId winningHand = .ok pr) :
    False :=
  Except.noConfusion h

theorem createParlay_ok {s s' : State} {userId : Nat} {legs : List ParlayLegInput}
    {totalWager : Rat} {pr : SportsParlay}
    (h : createParlay s userId legs totalWager = .ok (pr, s')) :
    ∃ bal payout, balOf s.balances userId = some bal ∧ totalWager ≤ bal ∧
      ¬ totalWager ≤ 0 ∧
      computePayout s legs totalWager = .ok payout ∧
      pr = ⟨s.nextId, userId, totalWager, payout, .pending⟩ ∧
      s' = { s with
        nextId := (insertLegs s.nextId legs (s.nextId + 1)).2,
        parlays := s.parlays ++ [⟨s.nextId, userId, totalWager, payout, .pending⟩],
        parlayLegs := s.parlayLegs ++ (insertLegs s.nextId legs (s.nextId + 1)).1,
        balances := updBal s.balances userId (fun b => b - totalWager),
        transactions := s.transactions ++
          [⟨userId, .bet, totalWager, "Sports parlay bet"⟩] } := by
  unfold createParlay at h
  by_cases h0 : totalWager ≤ 0
  · rw [if_pos h0] at h; exact Except.noConfusion h
  · rw [if_neg h0] at h
    cases hb : balOf s.balances userId with
    | none => rw [hb] at h; exact Except.noConfusion h
    | some bal =>
      rw [hb] at h
      simp only at h
      by_cases h1 : bal < totalWager
      · rw [if_pos h1] at h; exact Except.noConfusion h
      · rw [if_neg h1] at h
        cases hcp : computePayout s legs totalWager with
        | error e => rw [hcp] at h; exact Except.noConfusion h
        | ok payout =>
          rw [hcp] at h
          simp only [Except.ok.injEq, Prod.mk.injEq] at h
          exact ⟨bal, payout, rfl, le_of_not_lt h1, h0, rfl, h.1.symm, h.2.symm⟩

theorem updateEventScore_ok {s s' : State} {eventId : String} {homeScore awayScore : Rat}
    (h : updateEventScore s eventId homeScore awayScore = .ok ((), s')) :
    ∃ ev, getEvent s eventId = some ev ∧
      s' = resolveParlaysForEvent
        (scoreUpdatedState s eventId homeScore awayScore ev) eventId := by
  unfold updateEventScore at h
  cases hg : getEvent s eventId with
  | none => rw [hg] at h; exact Except.noConfusion h
  | some ev =>
    rw [hg] at h
    simp only [Except.ok.injEq, Prod.mk.injEq, true_and] at h
    refine ⟨ev, rfl, ?_⟩
    rw [← h]
    unfold scoreUpdatedState
    rfl

theorem resolveOneParlay_parlayLegs (st : State) (p : SportsParlay) :
    (resolveOneParlay st p).parlayLegs = st.parlayLegs := by
  unfold resolveOneParlay
  dsimp only
  split
  · split <;> rfl
  · rfl

theorem resolveOneParlay_eventCache (st : State) (p : SportsParlay) :
    (resolveOneParlay st p).eventCache = st.eventCache := by
  unfold resolveOneParlay
  dsimp only
  split
  · split <;> rfl
  · rfl

theorem foldl_resolve_parlayLegs (l : List SportsParlay) (st : State) :
    (l.foldl resolveOneParlay st).parlayLegs = st.parlayLegs := by
  induction l generalizing st with
  | nil => rfl
  | cons p rest ih => rw [List.foldl_cons, ih, resolveOneParlay_parlayLegs]

theorem foldl_resolve_eventCache (l : List SportsParlay) (st : State) :
    (l.foldl resolveOneParlay st).eventCache = st.eventCache := by
  induction l generalizing st with
  | nil => rfl
  | cons p rest ih => rw [List.foldl_cons, ih, resolveOneParlay_eventCache]

theorem resolveParlaysForEvent_eventCache (s : State) (eventId : String) :
    (resolveParlaysForEvent s eventId).eventCache = s.eventCache := by
  unfold resolveParlaysForEvent
  cases hg : getEvent s eventId with
  | none => rfl
  | some ev =>
    simp only
    split
    · exact foldl_resolve_eventCache _ _
    · rfl

/-- If the cached event is absent or not completed, resolution is a no-op. -/
theorem resolve_noop {s : State} {eventId : String}
    (h : ∀ ev, getEvent s eventId = some ev → ev.status ≠ .completed) :
    resolveParlaysForEvent s eventId = s := by
  unfold resolveParlaysForEvent
  cases hg : getEvent s eventId with
  | none => rfl
  | some ev =>
    simp only
    rw [if_neg]
    simp only [beq_iff_eq]
    exact h ev hg

theorem getEvent_mem {s : State} {eventId : String} {ev : SportsEvent}
    (h : getEvent s eventId = some ev) : ev ∈ s.eventCache :=
  List.mem_of_find?_eq_some h

theorem createTableRoute_ok {s s' : State} {name : String} {sb bb : Rat} {mp : Nat}
    {t : PokerTable} (h : createTableRoute s name sb bb mp = .ok (t, s')) :
    ∃ mp2, s' = (createTable s name sb bb mp2).2 := by
  unfold createTableRoute at h
  by_cases h1 : (name == "" || sb == 0 || bb == 0) = true
  · rw [if_pos h1] at h; exact Except.noConfusion h
  · rw [if_neg h1] at h
    simp only [Except.ok.injEq] at h
    exact ⟨_, (congrArg Prod.snd h).symm⟩

theorem joinTableRoute_ok {s s' : State} {tableId userId : Nat} {buyIn : Rat} {r : Bool}
    (h : joinTableRoute s tableId userId buyIn = .ok (r, s')) :
    joinTable s tableId userId buyIn = .ok (r, s') := by
  unfold joinTableRoute at h
  by_cases h1 : buyIn ≤ 0
  · rw [if_pos h1] at h; exact Except.noConfusion h
  · rwa [if_neg h1] at h

theorem leaveTableRoute_ok {s s' : State} {tableId userId : Nat} {cashOut : Rat} {r : Bool}
    (h : leaveTableRoute s tableId userId cashOut = .ok (r, s')) :
    leaveTable s tableId userId cashOut = .ok (r, s') ∧ 0 < cashOut := by
  unfold leaveTableRoute at h
  by_cases h1 : cashOut ≤ 0
  · rw [if_pos h1] at h; exact Except.noConfusion h
  · rw [if_neg h1] at h; exact ⟨h, lt_of_not_le h1⟩

theorem completeHandRoute_ok {s s' : State} {handId winnerId : Nat} {winningHand : String}
    (h : completeHandRoute s handId winnerId winningHand = .ok ((), s')) :
    completeHand s handId winnerId winningHand = .ok ((), s') := by
  unfold completeHandRoute at h
  by_cases h1 : (winnerId == 0 || winningHand == "") = true
  · rw [if_pos h1] at h; exact Except.noConfusion h
  · rwa [if_neg h1] at h

theorem createParlayRoute_ok {s s' : State} {userId : Nat} {legs : List ParlayLegInput}
    {totalWager : Rat} {p : SportsParlay}
    (h : createParlayRoute s userId legs totalWager = .ok (p, s')) :
    createParlay s userId legs totalWager = .ok (p, s') := by
  unfold createParlayRoute at h
  by_cases h1 : legs.isEmpty = true
  · rw [if_pos h1] at h; exact Except.noConfusion h
  · rw [if_neg h1] at h
    by_cases h2 : totalWager ≤ 0
    · rw [if_pos h2] at h; exact Except.noConfusion h
    · rwa [if_neg h2] at h

theorem scoreUpdatedState_eventCache (s : State) (eventId : String)
    (homeScore awayScore : Rat) (ev : SportsEvent) :
    (scoreUpdatedState s eventId homeScore awayScore ev).eventCache =
      s.eventCache.map (fun e =>
        if e.eventId == eventId then
          { e with homeScore := some homeScore, awayScore := some awayScore }
        else e) := by
  unfold scoreUpdatedState
  dsimp only
  split <;> rfl

/-- No write operation ever marks a cached event completed: the score-update
path writes the in-progress status only to the sports_events relation and
leaves the cached status untouched, and nothing else writes the cache.  The
seeded sample events are all scheduled. -/
theorem reachable_no_completed {s : State} (h : Reachable s) :
    ∀ ev ∈ s.eventCache, ev.status ≠ .completed := by
  induction h with
  | init balances hkeys =>
    intro ev hev
    simp only [initState] at hev
    fin_cases hev <;> decide
  | createTableStep name sb bb mp t _ hstep ih =>
    obtain ⟨mp2, rfl⟩ := createTableRoute_ok hstep
    exact ih
  | joinTableStep tableId userId buyIn r _ hstep ih =>
    obtain ⟨bal, _, _, _, rfl⟩ := joinTable_ok (joinTableRoute_ok hstep)
    exact ih
  | leaveTableStep tableId userId cashOut r _ hstep ih =>
    obtain ⟨_, rfl⟩ := leaveTable_ok (leaveTableRoute_ok hstep).1
    exact ih
  | dealHandStep tableId hd _ hstep ih =>
    exact absurd hstep (fun hc => dealHand_never_ok hc)
  | completeHandStep handId winnerId winningHand _ hstep ih =>
    exact absurd (completeHandRoute_ok hstep) (fun hc => completeHand_never_ok hc)
  | createParlayStep userId legs totalWager p _ hstep ih =>
    obtain ⟨bal, payout, _, _, _, _, _, rfl⟩ := createParlay_ok (createParlayRoute_ok hstep)
    exact ih
  | updateEventScoreStep eventId homeScore awayScore _ hstep ih =>
    obtain ⟨ev, _, rfl⟩ := updateEventScore_ok hstep
    intro ev2 hev2
    rw [resolveParlaysForEvent_eventCache, scoreUpdatedState_eventCache] at hev2
    obtain ⟨e0, he0, hmap⟩ := List.mem_map.mp hev2
    have hst : ev2.status = e0.status := by
      by_cases hid : (e0.eventId == eventId) = true
      · rw [if_pos hid] at hmap; rw [← hmap]
      · rw [if_neg hid] at hmap; rw [← hmap]
    rw [hst]
    exact ih e0 he0

theorem resolveOneParlay_mem_pending {st : State} {p q : SportsParlay}
    (hq : q ∈ (resolveOneParlay st p).parlays) (hpend : q.status = .pending) :
    q ∈ st.parlays := by
  unfold resolveOneParlay at hq
  dsimp only at hq
  by_cases h1 : ((legsOfParlay st p.parlayId).all (fun l => l.result.isSome)) = true
  · rw [if_pos h1] at hq
    by_cases h2 : ((legsOfParlay st p.parlayId).all (fun l => l.result == some .won)) = true
    · simp only [h2, if_true] at hq
      obtain ⟨q0, hq0, hfq⟩ := List.mem_map.mp hq
      by_cases hid : (q0.parlayId == p.parlayId) = true
      · rw [if_pos hid] at hfq
        rw [← hfq] at hpend
        exact absurd hpend (by simp)
      · rw [if_neg hid] at hfq
        rw [← hfq]
        exact hq0
    · simp only [h2, if_false, Bool.false_eq_true] at hq
      obtain ⟨q0, hq0, hfq⟩ := List.mem_map.mp hq
      by_cases hid : (q0.parlayId == p.parlayId) = true
      · rw [if_pos hid] at hfq
        rw [← hfq] at hpend
        exact absurd hpend (by simp)
      · rw [if_neg hid] at hfq
        rw [← hfq]
        exact hq0
  · rw [if_neg h1] at hq
    exact hq

theorem resolveOneParlay_stamps (st : State) (p : SportsParlay)
    (h1 : (legsOfParlay st p.parlayId).all (fun l => l.result.isSome) = true) :
    ∀ q ∈ (resolveOneParlay st p).parlays, q.parlayId = p.parlayId →
      q.status ≠ .pending := by
  intro q hq hid hpend
  unfold resolveOneParlay at hq
  dsimp only at hq
  rw [if_pos h1] at hq
  by_cases h2 : ((legsOfParlay st p.parlayId).all (fun l => l.result == some .won)) = true
  · simp only [h2, if_true] at hq
    obtain ⟨q0, hq0, hfq⟩ := List.mem_map.mp hq
    by_cases hid0 : (q0.parlayId == p.parlayId) = true
    · rw [if_pos hid0] at hfq
      rw [← hfq] at hpend
      exact absurd hpend (by simp)
    · rw [if_neg hid0] at hfq
      rw [← hfq] at hid
      exact absurd hid (by simpa using hid0)
  · simp only [h2, if_false, Bool.false_eq_true] at hq
    obtain ⟨q0, hq0, hfq⟩ := List.mem_map.mp hq
    by_cases hid0 : (q0.parlayId == p.parlayId) = true
    · rw [if_pos hid0] at hfq
      rw [← hfq] at hpend
      exact absurd hpend (by simp)
    · rw [if_neg hid0] at hfq
      rw [← hfq] at hid
      exact absurd hid (by simpa using hid0)

theorem foldl_resolve_mem_pending {l : List SportsParlay} {st : State} {q : SportsParlay}
    (hq : q ∈ (l.foldl resolveOneParlay st).parlays) (hpend : q.status = .pending) :
    q ∈ st.parlays := by
  induction l generalizing st with
  | nil => exact hq
  | cons p rest ih =>
    rw [List.foldl_cons] at hq
    exact resolveOneParlay_mem_pending (ih hq) hpend

theorem legsOfParlay_resolveOne (st : State) (p : SportsParlay) (pid : Nat) :
    legsOfParlay (resolveOneParlay st p) pid = legsOfParlay st pid := by
  unfold legsOfParlay
  rw [resolveOneParlay_parlayLegs]

theorem foldl_resolved_not_pending {l : List SportsParlay} {st : State} {q : SportsParlay}
    (hql : q ∈ l)
    (hall : (legsOfParlay st q.parlayId).all (fun x => x.result.isSome) = true) :
    ∀ q2 ∈ (l.foldl resolveOneParlay st).parlays, q2.parlayId = q.parlayId →
      q2.status ≠ .pending := by
  induction l generalizing st with
  | nil => cases hql
  | cons p rest ih =>
    intro q2 hq2 hid hpend
    rw [List.foldl_cons] at hq2
    rcases List.mem_cons.mp hql with hqp | hqrest
    · have hstamp := resolveOneParlay_stamps st p (by rw [← hqp]; exact hall)
      have hq2mem : q2 ∈ (resolveOneParlay st p).parlays :=
        foldl_resolve_mem_pending hq2 hpend
      exact hstamp q2 hq2mem (by rw [hid, hqp]) hpend
    · have hall2 : (legsOfParlay (resolveOneParlay st p) q.parlayId).all
          (fun x => x.result.isSome) = true := by
        rw [legsOfParlay_resolveOne]
        exact hall
      exact ih hqrest hall2 q2 hq2 hid hpend

theorem foldl_resolve_id {l : List SportsParlay} {st : State}
    (h : ∀ q ∈ l, ¬ (legsOfParlay st q.parlayId).all (fun x => x.result.isSome) = true) :
    l.foldl resolveOneParlay st = st := by
  induction l with
  | nil => rfl
  | cons p rest ih =>
    rw [List.foldl_cons]
    have hstep : resolveOneParlay st p = st := by
      unfold resolveOneParlay
      dsimp only
      rw [if_neg (h p (List.mem_cons_self p rest))]
    rw [hstep]
    exact ih (fun q hq => h q (List.mem_cons_of_mem p hq))

theorem parlayTouchesEvent_congr {s1 s2 : State} (h : s1.parlayLegs = s2.parlayLegs)
    (pid : Nat) (e : String) :
    parlayTouchesEvent s1 pid e = parlayTouchesEvent s2 pid e := by
  unfold parlayTouchesEvent
  rw [h]

theorem legsOfParlay_congr {s1 s2 : State} (h : s1.parlayLegs = s2.parlayLegs) (pid : Nat) :
    legsOfParlay s1 pid = legsOfParlay s2 pid := by
  unfold legsOfParlay
  rw [h]

theorem mem_resolveCandidates {s : State} {e : String} {q : SportsParlay} :
    q ∈ resolveCandidates s e ↔
      q ∈ s.parlays ∧ q.status = .pending ∧ parlayTouchesEvent s q.parlayId e = true := by
  unfold resolveCandidates
  simp [List.mem_filter, Bool.and_eq_true, beq_iff_eq, and_assoc]

/-- C2: resolveParlaysForEvent is idempotent with respect to payouts.  First
part: running resolution twice in succession for the same event yields the
same state as running it once, because only parlays still pending are
selected and a resolved parlay is stamped won or lost before/with the
credit.  Second part: one invocation on a completed event does credit a
pending parlay whose legs all resolved won, adding exactly its potential
payout to the balance of its user. -/
theorem claim2_resolve_idempotent :
    (∀ (s : State) (eventId : String),
      resolveParlaysForEvent (resolveParlaysForEvent s eventId) eventId =
        resolveParlaysForEvent s eventId) ∧
    (∀ (s : State) (eventId : String) (ev : SportsEvent) (p : SportsParlay),
      getEvent s eventId = some ev → ev.status = .completed →
      s.parlays = [p] → p.status = .pending →
      parlayTouchesEvent s p.parlayId eventId = true →
      (∀ l ∈ legsOfParlay s p.parlayId, l.result = some .won) →
      balOf (resolveParlaysForEvent s eventId).balances p.userId =
        (balOf s.balances p.userId).map (fun b => b + p.potentialPayout)) := by
  constructor
  · intro s e
    cases hg : getEvent s e with
    | none =>
      have h0 : resolveParlaysForEvent s e = s :=
        resolve_noop (by intro ev hev; rw [hg] at hev; exact Option.noConfusion hev)
      rw [h0, h0]
    | some ev =>
      by_cases hc : ev.status = .completed
      · have hr : resolveParlaysForEvent s e =
            List.foldl resolveOneParlay s (resolveCandidates s e) := by
          unfold resolveParlaysForEvent
          rw [hg]
          dsimp only
          rw [if_pos (by simp [hc])]
        rw [hr]
        have hcache : getEvent (List.foldl resolveOneParlay s (resolveCandidates s e)) e =
            some ev := by
          have hg2 := hg
          unfold getEvent at hg2 ⊢
          rw [foldl_resolve_eventCache]
          exact hg2
        unfold resolveParlaysForEvent
        rw [hcache]
        dsimp only
        rw [if_pos (by simp [hc])]
        apply foldl_resolve_id
        intro q hq hall
        have hlegs : (List.foldl resolveOneParlay s (resolveCandidates s e)).parlayLegs =
            s.parlayLegs := foldl_resolve_parlayLegs _ _
        obtain ⟨hqmem, hpend, htouch_r⟩ := mem_resolveCandidates.mp hq
        have hqmem_s : q ∈ s.parlays := foldl_resolve_mem_pending hqmem hpend
        have htouch_s : parlayTouchesEvent s q.parlayId e = true := by
          rw [← parlayTouchesEvent_congr hlegs]
          exact htouch_r
        have hq_cand : q ∈ resolveCandidates s e :=
          mem_resolveCandidates.mpr ⟨hqmem_s, hpend, htouch_s⟩
        have hall_s : (legsOfParlay s q.parlayId).all (fun x => x.result.isSome) = true := by
          rw [legsOfParlay_congr hlegs] at hall
          exact hall
        exact foldl_resolved_not_pending hq_cand hall_s q hqmem rfl hpend
      · have h0 : resolveParlaysForEvent s e = s :=
          resolve_noop (by
            intro ev2 hev2
            rw [hg] at hev2
            rw [← Option.some.inj hev2]
            exact hc)
        rw [h0, h0]
  · intro s e ev p hg hc hp hpend htouch hlegs
    unfold resolveParlaysForEvent
    rw [hg]
    dsimp only
    rw [if_pos (by simp [hc])]
    have hcand : resolveCandidates s e = [p] := by
      unfold resolveCandidates
      rw [hp]
      simp [List.filter, hpend, htouch]
    rw [hcand, List.foldl_cons, List.foldl_nil]
    unfold resolveOneParlay
    dsimp only
    have hall : (legsOfParlay s p.parlayId).all (fun l => l.result.isSome) = true :=
      List.all_eq_true.mpr (fun l hl => by rw [hlegs l hl]; rfl)
    have hwon : (legsOfParlay s p.parlayId).all (fun l => l.result == some .won) = true :=
      List.all_eq_true.mpr (fun l hl => by rw [hlegs l hl]; rfl)
    simp only [hall, hwon, if_true]
    exact balOf_updBal_self s.balances p.userId (fun b => b + p.potentialPayout)

theorem computePayout_ok {s : State} {legs : List ParlayLegInput} {acc q : Rat}
    (h : computePayout s legs acc = .ok q) :
    q = acc * (legs.map (fun l => l.odds / 100)).prod := by
  induction legs generalizing acc with
  | nil =>
    unfold computePayout at h
    simp only [Except.ok.injEq] at h
    rw [← h]
    simp
  | cons leg rest ih =>
    unfold computePayout at h
    cases hg : getEvent s leg.eventId with
    | none => rw [hg] at h; exact Except.noConfusion h
    | some ev =>
      rw [hg] at h
      rw [ih h]
      simp only [List.map_cons, List.prod_cons]
      ring

/-- C3: for every successful createParlay call, the stored potentialPayout
equals totalWager multiplied by the product, in leg order, of odds / 100. -/
theorem claim3_payout_formula (s : State) (userId : Nat) (legs : List ParlayLegInput)
    (totalWager : Rat) (pr : SportsParlay × State)
    (h : createParlay s userId legs totalWager = .ok pr) :
    pr.1.potentialPayout = totalWager * (legs.map (fun l => l.odds / 100)).prod := by
  obtain ⟨p1, s2⟩ := pr
  obtain ⟨bal, payout, hb, hle, hw, hcp, hp1, hs2⟩ := createParlay_ok h
  rw [hp1]
  exact computePayout_ok hcp

/-- Witness for C3: with legs of odds 150 and 120 and a wager of 10 the
stored potential payout is exactly 18. -/
theorem claim3_witness :
    (createParlay (initState [(1, 100)]) 1 demoLegs 10).map
      (fun pr => pr.1.potentialPayout) = .ok 18 := by
  obtain ⟨pr, hpr⟩ : ∃ pr, createParlay (initState [(1, 100)]) 1 demoLegs 10 = .ok pr :=
    ⟨_, rfl⟩
  have h18 := claim3_payout_formula _ _ _ _ _ hpr
  rw [hpr]
  simp only [Except.map]
  rw [h18]
  norm_num [demoLegs]

/-- C7: createParlay invoked through its route with an empty leg sequence
fails with InvalidLegs, and the state (so every balance and the parlay
relation) is exactly as before the call. -/
theorem claim7_empty_legs (s : State) (userId : Nat) (totalWager : Rat) :
    createParlayRoute s userId [] totalWager = .error .invalidLegs ∧
    postOf s (createParlayRoute s userId [] totalWager) = s := by
  constructor <;> rfl

/-- Counterexample for C9: with no table row, dealHand does not fail with the
deliberate TableNotFound error; it raises the uncaught TypeError of its
this.pool.query call (the service has no pool field). -/
theorem claim9_cex :
    findTable (initState []) 0 = none ∧
    dealHand (initState []) 0 ≠ .error .tableNotFound ∧
    dealHand (initState []) 0 = .error .jsTypeError := by
  decide

/-- C9 amended: for a missing table, dealHand throws an uncaught TypeError
(reading query off the undefined this.pool), not a typed TableNotFound; it
creates no hand and leaves all state unchanged. -/
theorem claim9_deal_hand_missing_table (s : State) (tableId : Nat)
    (h : findTable s tableId = none) :
    dealHand s tableId = .error .jsTypeError ∧
    postOf s (dealHand s tableId) = s ∧
    (postOf s (dealHand s tableId)).hands = s.hands :=
  ⟨rfl, rfl, rfl⟩

/-- Witness for C9 at a concrete missing table id. -/
theorem claim9_witness :
    findTable (initState []) 5 = none ∧
    dealHand (initState []) 5 = .error .jsTypeError := by
  have h : findTable (initState []) 5 = none := rfl
  exact ⟨h, (claim9_deal_hand_missing_table (initState []) 5 h).1⟩

/-- C10: a user row with a missing country defaults to US, so the country
check passes; such a user can only be reported ineligible for an age reason
or a state reason, never the country reason. -/
theorem claim10_country_default (u : UserRow) (todayYear : Int)
    (h : u.country = none) :
    isCountryEligible u = true ∧
    (checkEligibility u todayYear).isEligible =
      (isAgeEligible u todayYear && isStateEligible u) ∧
    ((checkEligibility u todayYear).isEligible = false →
      (checkEligibility u todayYear).reason = some "Must be 18+ years old" ∨
      (checkEligibility u todayYear).reason =
        some ("Sweepstakes not available in " ++ stateDisplay u)) := by
  have hcountry : isCountryEligible u = true := by
    unfold isCountryEligible normCountry
    rw [h]
    rfl
  refine ⟨hcountry, ?_, ?_⟩
  · unfold checkEligibility
    dsimp only
    rw [hcountry, Bool.and_true]
  · intro hineg
    unfold checkEligibility at hineg ⊢
    dsimp only at hineg ⊢
    rw [hcountry, Bool.and_true] at hineg
    cases ha : isAgeEligible u todayYear with
    | false => left; simp [ha]
    | true =>
      cases hst : isStateEligible u with
      | false => right; simp [ha, hst]
      | true => rw [ha, hst] at hineg; exact absurd hineg (by simp)

/-- Witness for C10: an underage user with no stored state and no stored
country is rejected for age, not for country. -/
theorem claim10_witness :
    isCountryEligible ⟨2010, none, none⟩ = true ∧
    (checkEligibility ⟨2010, none, none⟩ 2026).isEligible = false ∧
    (checkEligibility ⟨2010, none, none⟩ 2026).reason = some "Must be 18+ years old" := by
  have h := claim10_country_default ⟨2010, none, none⟩ 2026 rfl
  refine ⟨h.1, by decide, ?_⟩
  rcases h.2.2 (by decide) with hr | hr
  · exact hr
  · exact absurd hr (by decide)

theorem updBal_pairwise {bs : List (Nat × Rat)} {u : Nat} {f : Rat → Rat}
    (h : bs.Pairwise (fun a b => a.1 ≠ b.1)) :
    (updBal bs u f).Pairwise (fun a b => a.1 ≠ b.1) := by
  induction bs with
  | nil => exact List.Pairwise.nil
  | cons e t ih =>
    obtain ⟨he, ht⟩ := List.pairwise_cons.mp h
    rw [updBal]
    apply List.pairwise_cons.mpr
    refine ⟨?_, ih ht⟩
    intro y hy
    have hkey : (if (e.1 == u) = true then (e.1, f e.2) else e).1 = e.1 := by
      split <;> rfl
    rw [hkey]
    rcases mem_updBal hy with h1 | ⟨q, hq, hqu, hyq⟩
    · exact he y h1
    · rw [hyq]
      exact he q hq

theorem resolveOneParlay_pairwise {st : State} {p : SportsParlay}
    (h : st.balances.Pairwise (fun a b => a.1 ≠ b.1)) :
    (resolveOneParlay st p).balances.Pairwise (fun a b => a.1 ≠ b.1) := by
  unfold resolveOneParlay
  dsimp only
  split
  · split
    · exact updBal_pairwise h
    · exact h
  · exact h

theorem foldl_resolve_pairwise (l : List SportsParlay) (st : State)
    (h : st.balances.Pairwise (fun a b => a.1 ≠ b.1)) :
    (l.foldl resolveOneParlay st).balances.Pairwise (fun a b => a.1 ≠ b.1) := by
  induction l generalizing st with
  | nil => exact h
  | cons p rest ih =>
    rw [List.foldl_cons]
    exact ih _ (resolveOneParlay_pairwise h)

theorem resolveParlaysForEvent_pairwise {s : State} {eventId : String}
    (h : s.balances.Pairwise (fun a b => a.1 ≠ b.1)) :
    (resolveParlaysForEvent s eventId).balances.Pairwise (fun a b => a.1 ≠ b.1) := by
  unfold resolveParlaysForEvent
  cases hg : getEvent s eventId with
  | none => exact h
  | some ev =>
    simp only
    split
    · exact foldl_resolve_pairwise _ _ h
    · exact h

theorem scoreUpdatedState_balances (s : State) (eventId : String) (hs aw : Rat)
    (ev : SportsEvent) :
    (scoreUpdatedState s eventId hs aw ev).balances = s.balances := by
  unfold scoreUpdatedState
  dsimp only
  split <;> rfl

/-- Balance rows stay one per user in every reachable state: the initial
rows are keyed by the user identifier and every operation only updates
values in place (no operation inserts a balance row). -/
theorem reachable_balances_pairwise {s : State} (h : Reachable s) :
    s.balances.Pairwise (fun a b => a.1 ≠ b.1) := by
  induction h with
  | init balances hkeys => exact hkeys
  | createTableStep name sb bb mp t _ hstep ih =>
    obtain ⟨mp2, rfl⟩ := createTableRoute_ok hstep
    exact ih
  | joinTableStep tableId userId buyIn r _ hstep ih =>
    obtain ⟨bal, _, _, _, rfl⟩ := joinTable_ok (joinTableRoute_ok hstep)
    exact updBal_pairwise ih
  | leaveTableStep tableId userId cashOut r _ hstep ih =>
    obtain ⟨_, rfl⟩ := leaveTable_ok (leaveTableRoute_ok hstep).1
    exact updBal_pairwise ih
  | dealHandStep tableId hd _ hstep ih =>
    exact absurd hstep (fun hc => dealHand_never_ok hc)
  | completeHandStep handId winnerId winningHand _ hstep ih =>
    exact absurd (completeHandRoute_ok hstep) (fun hc => completeHand_never_ok hc)
  | createParlayStep userId legs totalWager p _ hstep ih =>
    obtain ⟨bal, payout, _, _, _, _, _, rfl⟩ := createParlay_ok (createParlayRoute_ok hstep)
    exact updBal_pairwise ih
  | updateEventScoreStep eventId homeScore awayScore _ hstep ih =>
    obtain ⟨ev, _, rfl⟩ := updateEventScore_ok hstep
    apply resolveParlaysForEvent_pairwise
    rw [scoreUpdatedState_balances]
    exact ih

/-- C1: on every reachable state whose balances are all non-negative, each
of the five operations keeps every balance non-negative.  joinTable and
createParlay debit only after checking the balance covers the amount;
leaveTable with a non-negative cash out only credits; completeHand always
throws the this.pool TypeError before any write, so it never touches a
balance; and resolveParlaysForEvent leaves every reachable state unchanged,
because no reachable cached event is ever in status completed. -/
theorem claim1_balance_nonneg (s : State) (hreach : Reachable s)
    (hpos : ∀ p ∈ s.balances, 0 ≤ p.2) :
    (∀ tableId userId buyIn,
      ∀ q ∈ (postOf s (joinTable s tableId userId buyIn)).balances, 0 ≤ q.2) ∧
    (∀ tableId userId cashOut, 0 ≤ cashOut →
      ∀ q ∈ (postOf s (leaveTable s tableId userId cashOut)).balances, 0 ≤ q.2) ∧
    (∀ userId legs totalWager,
      ∀ q ∈ (postOf s (createParlay s userId legs totalWager)).balances, 0 ≤ q.2) ∧
    (∀ handId winnerId winningHand,
      ∀ q ∈ (postOf s (completeHand s handId winnerId winningHand)).balances,
        0 ≤ q.2) ∧
    (∀ eventId, ∀ q ∈ (resolveParlaysForEvent s eventId).balances, 0 ≤ q.2) := by
  have hkeys : s.balances.Pairwise (fun a b => a.1 ≠ b.1) :=
    reachable_balances_pairwise hreach
  refine ⟨?_, ?_, ?_, ?_, ?_⟩
  · intro tableId userId buyIn
    cases hj : joinTable s tableId userId buyIn with
    | error e => simp only [hj, postOf]; exact hpos
    | ok pr =>
      obtain ⟨r, s2⟩ := pr
      obtain ⟨bal, hb, hle, hr, hs2⟩ := joinTable_ok hj
      simp only [hj, postOf]
      rw [hs2]
      exact updBal_sub_nonneg hkeys hpos hb hle
  · intro tableId userId cashOut hc
    cases hl : leaveTable s tableId userId cashOut with
    | error e => simp only [hl, postOf]; exact hpos
    | ok pr =>
      obtain ⟨r, s2⟩ := pr
      obtain ⟨hr, hs2⟩ := leaveTable_ok hl
      simp only [hl, postOf]
      rw [hs2]
      exact updBal_nonneg hpos (fun b hb => by linarith)
  · intro userId legs totalWager
    cases hcp : createParlay s userId legs totalWager with
    | error e => simp only [hcp, postOf]; exact hpos
    | ok pr =>
      obtain ⟨p1, s2⟩ := pr
      obtain ⟨bal, payout, hb, hle, hw, hpay, hp1, hs2⟩ := createParlay_ok hcp
      simp only [hcp, postOf]
      rw [hs2]
      exact updBal_sub_nonneg hkeys hpos hb hle
  · intro handId winnerId winningHand
    simp only [completeHand, postOf]
    exact hpos
  · intro eventId
    rw [resolve_noop (fun ev hev =>
      reachable_no_completed hreach ev (getEvent_mem hev))]
    exact hpos

/-- Witness for C1 at a concrete reachable state: a join and a resolution
from a fresh state with one balance row of 50 keep every balance
non-negative, and completeHand changes nothing. -/
theorem claim1_witness :
    (∀ q ∈ (postOf (initState [(1, 50)])
        (joinTable (initState [(1, 50)]) 0 1 40)).balances, 0 ≤ q.2) ∧
    (∀ q ∈ (postOf (initState [(1, 50)])
        (completeHand (initState [(1, 50)]) 0 1 "flush")).balances, 0 ≤ q.2) ∧
    (∀ q ∈ (resolveParlaysForEvent (initState [(1, 50)]) "nfl_001").balances,
      0 ≤ q.2) := by
  have h := claim1_balance_nonneg (initState [(1, 50)])
    (Reachable.init _ (by decide)) (by decide)
  exact ⟨h.1 0 1 40, h.2.2.2.1 0 1 "flush", h.2.2.2.2 "nfl_001"⟩

theorem isEmpty_eq_nil {α : Type} {l : List α} (h : l.isEmpty = true) : l = [] := by
  cases l with
  | nil => rfl
  | cons a t => simp [List.isEmpty] at h

/-- Counterexample for C4: the user holds no active seat at the table, yet
leaveTable succeeds (the WHERE clause of the UPDATE has no is_active
condition, so the inactive row still matches) and credits the cash out. -/
theorem claim4_cex :
    (∀ p ∈ c4CexState.seats, ¬(p.tableId = 0 ∧ p.userId = 1 ∧ p.isActive = true)) ∧
    isOk (leaveTable c4CexState 0 1 5) = true ∧
    balOf (postOf c4CexState (leaveTable c4CexState 0 1 5)).balances 1 = some 5 := by
  refine ⟨by decide, by decide, ?_⟩
  show balOf [((1 : Nat), (0 : Rat) + 5)] 1 = some 5
  norm_num [balOf]

/-- C4 amended: leaveTable fails with PlayerNotFound exactly when the user
has no seat row at all (active or inactive) at the table; whenever some row
matches, it marks every seat of the user at that table inactive and credits
the cash out to the balance row of the user. -/
theorem claim4_leave_characterization (s : State) (tableId userId : Nat) (cashOut : Rat) :
    (leaveTable s tableId userId cashOut = .error .playerNotFound ↔
      ∀ p ∈ s.seats, ¬(p.tableId = tableId ∧ p.userId = userId)) ∧
    (∀ r s2, leaveTable s tableId userId cashOut = .ok (r, s2) →
      (∀ q ∈ s2.seats, q.tableId = tableId → q.userId = userId → q.isActive = false) ∧
      balOf s2.balances userId = (balOf s.balances userId).map (fun b => b + cashOut)) := by
  constructor
  · constructor
    · intro h p hp hcond
      have hnil : s.seats.filter (fun p => p.tableId == tableId && p.userId == userId) = [] :=
        isEmpty_eq_nil (leaveTable_err h)
      have hpin : p ∈ s.seats.filter (fun p => p.tableId == tableId && p.userId == userId) :=
        List.mem_filter.mpr ⟨hp, by simp [hcond.1, hcond.2]⟩
      rw [hnil] at hpin
      cases hpin
    · intro h
      have hnil : s.seats.filter (fun p => p.tableId == tableId && p.userId == userId) = [] := by
        apply List.filter_eq_nil_iff.mpr
        intro p hp
        simp only [Bool.and_eq_true, beq_iff_eq, not_and]
        intro h1 h2
        exact h p hp ⟨h1, h2⟩
      unfold leaveTable
      dsimp only
      rw [hnil]
      rfl
  · intro r s2 hok
    obtain ⟨hr, hs2⟩ := leaveTable_ok hok
    subst hs2
    constructor
    · intro q hq h1 h2
      obtain ⟨q0, hq0, hfq⟩ := List.mem_map.mp hq
      by_cases hcond : (q0.tableId == tableId && q0.userId == userId) = true
      · rw [if_pos hcond] at hfq
        rw [← hfq]
      · rw [if_neg hcond] at hfq
        rw [← hfq] at h1 h2
        exact absurd (by simp [h1, h2]) hcond
    · exact balOf_updBal_self s.balances userId (fun b => b + cashOut)

/-- Witness for C4: with one active seat, leaveTable does not fail and the
cash out of 5 is credited to the existing balance of 0. -/
theorem claim4_witness :
    leaveTable c4WitState 0 1 5 ≠ .error .playerNotFound ∧
    balOf (postOf c4WitState (leaveTable c4WitState 0 1 5)).balances 1 = some 5 := by
  have h := claim4_leave_characterization c4WitState 0 1 5
  constructor
  · intro herr
    have hno := (h.1).mp herr ⟨0, 1, 40, "under-the-gun", true, 0⟩ (by decide)
    exact hno ⟨rfl, rfl⟩
  · cases hlv : leaveTable c4WitState 0 1 5 with
    | error e =>
      have hok : isOk (leaveTable c4WitState 0 1 5) = true := by decide
      rw [hlv] at hok
      exact absurd hok (by simp [isOk])
    | ok pr =>
      obtain ⟨r, s2⟩ := pr
      have hbal := (h.2 r s2 hlv).2
      simp only [hlv, postOf]
      rw [hbal]
      norm_num [c4WitState, initState, balOf]

/-- C5: a hand is never paid twice.  The source completeHand reads
this.pool.query with this.pool undefined (the class has no pool field), so
every call — in particular a repeated call on a hand already in status
finished — throws a TypeError before the status update or the pot credit,
and no winner balance is ever credited again. -/
theorem claim5_no_second_credit (s : State) (handId winnerId : Nat)
    (winningHand : String) (hand : PokerHand)
    (hfh : findHand s handId = some hand) (hst : hand.status = .finished) :
    completeHand s handId winnerId winningHand = .error .jsTypeError ∧
    postOf s (completeHand s handId winnerId winningHand) = s :=
  ⟨rfl, rfl⟩

/-- Witness for C5: hand 0 is already finished with pot 15 and a winner
balance of 10; the repeated completion call throws and the balance stays
10. -/
theorem claim5_witness :
    (findHand c5CexState 0).map PokerHand.status = some .finished ∧
    completeHand c5CexState 0 2 "pair" = .error .jsTypeError ∧
    balOf (postOf c5CexState (completeHand c5CexState 0 2 "pair")).balances 2 =
      some 10 := by
  have h := claim5_no_second_credit c5CexState 0 2 "pair"
    ⟨0, 0, 1, 2, 15, [], .finished, some 2, some "pair"⟩ rfl rfl
  refine ⟨by decide, h.1, ?_⟩
  rw [h.2]
  decide

theorem c6_step1 :
    createTableRoute (initState [(1, 100)]) "t" 1 2 6 = .ok (c6Table, c6State1) := rfl

theorem c6_step2 : joinTableRoute c6State1 0 1 40 = .ok (true, c6State2) := by
  unfold joinTableRoute joinTable
  rw [if_neg (by norm_num : ¬ (40 : Rat) ≤ 0)]
  rw [show findTable c6State1 0 = some c6Table from rfl]
  dsimp only
  rw [if_neg (show ¬((40 : Rat) < c6Table.minBuyIn ∨ (40 : Rat) > c6Table.maxBuyIn) from by
    norm_num [c6Table])]
  rw [if_neg (show ¬(c6Table.maxPlayers ≤ activePlayerCount c6State1 0) from by decide)]
  rw [show balOf c6State1.balances 1 = some 100 from rfl]
  dsimp only
  rw [if_neg (by norm_num : ¬ (100 : Rat) < 40)]
  rfl

theorem c6_step3 : joinTableRoute c6State2 0 1 40 = .ok (true, c6State3) := by
  unfold joinTableRoute joinTable
  rw [if_neg (by norm_num : ¬ (40 : Rat) ≤ 0)]
  rw [show findTable c6State2 0 = some c6Table from rfl]
  dsimp only
  rw [if_neg (show ¬((40 : Rat) < c6Table.minBuyIn ∨ (40 : Rat) > c6Table.maxBuyIn) from by
    norm_num [c6Table])]
  rw [if_neg (show ¬(c6Table.maxPlayers ≤ activePlayerCount c6State2 0) from by decide)]
  rw [show balOf c6State2.balances 1 = some (100 - 40) from rfl]
  dsimp only
  rw [if_neg (by norm_num : ¬ (100 - 40 : Rat) < 40)]
  rfl

/-- Counterexample for C6: a reachable state in which user 1 holds two
active seats at table 0, because joinTable never checks whether the joining
user already sits at the table. -/
theorem claim6_cex :
    Reachable c6State3 ∧ userActiveSeatCount c6State3 0 1 = 2 := by
  constructor
  · have h0 : Reachable (initState [(1, 100)]) := Reachable.init _ (by decide)
    have h1 : Reachable c6State1 :=
      Reachable.createTableStep "t" 1 2 6 c6Table h0 c6_step1
    have h2 : Reachable c6State2 :=
      Reachable.joinTableStep 0 1 40 true h1 c6_step2
    exact Reachable.joinTableStep 0 1 40 true h2 c6_step3
  · decide

/-- C6 amended: joinTable checks only table existence, the buy-in bounds,
table capacity and the balance of the user — never an existing seat; when
those checks pass it succeeds and inserts one more active seat for the user,
whether or not the user already holds one. -/
theorem claim6_join_no_duplicate_check (s : State) (tableId userId : Nat) (buyIn : Rat)
    (table : PokerTable) (bal : Rat)
    (hft : findTable s tableId = some table)
    (hmin : table.minBuyIn ≤ buyIn) (hmax : buyIn ≤ table.maxBuyIn)
    (hcap : activePlayerCount s tableId < table.maxPlayers)
    (hbal : balOf s.balances userId = some bal) (hfund : buyIn ≤ bal) :
    isOk (joinTable s tableId userId buyIn) = true ∧
    userActiveSeatCount (postOf s (joinTable s tableId userId buyIn)) tableId userId =
      userActiveSeatCount s tableId userId + 1 := by
  have hok : joinTable s tableId userId buyIn = .ok (true,
      { s with
        seats := s.seats ++ [⟨tableId, userId, buyIn, "under-the-gun", true, 0⟩],
        balances := updBal s.balances userId (fun b => b - buyIn),
        transactions := s.transactions ++
          [⟨userId, .bet, buyIn, "Poker table buy-in"⟩] }) := by
    unfold joinTable
    rw [hft]
    dsimp only
    rw [if_neg (by push_neg; exact ⟨hmin, hmax⟩ :
      ¬(buyIn < table.minBuyIn ∨ buyIn > table.maxBuyIn))]
    rw [if_neg (not_le.mpr hcap), hbal]
    dsimp only
    rw [if_neg (not_lt.mpr hfund)]
  rw [hok]
  refine ⟨rfl, ?_⟩
  simp only [postOf]
  unfold userActiveSeatCount
  dsimp only
  rw [List.filter_append]
  simp

/-- Witness for C6: in the reachable state where user 1 already holds one
active seat at table 0, a second join succeeds and doubles the count. -/
theorem claim6_witness :
    isOk (joinTable c6State2 0 1 40) = true ∧
    userActiveSeatCount (postOf c6State2 (joinTable c6State2 0 1 40)) 0 1 =
      userActiveSeatCount c6State2 0 1 + 1 ∧
    userActiveSeatCount c6State2 0 1 = 1 := by
  have h := claim6_join_no_duplicate_check c6State2 0 1 40 c6Table (100 - 40)
    rfl (by norm_num [c6Table]) (by norm_num [c6Table]) (by decide) rfl (by norm_num)
  exact ⟨h.1, h.2, by decide⟩

theorem getEvent_scoreUpdated (s : State) (eventId : String) (hs aw : Rat)
    (ev : SportsEvent) :
    getEvent (scoreUpdatedState s eventId hs aw ev) eventId =
      (getEvent s eventId).map (fun e =>
        { e with homeScore := some hs, awayScore := some aw }) := by
  unfold getEvent
  rw [scoreUpdatedState_eventCache]
  generalize s.eventCache = l
  induction l with
  | nil => rfl
  | cons e t ih =>
    simp only [List.map_cons, List.find?]
    cases he : e.eventId == eventId with
    | true =>
      rw [show ((if true = true then
          ({ e with homeScore := some hs, awayScore := some aw } : SportsEvent)
        else e).eventId == eventId) = true from he]
      rfl
    | false =>
      rw [show ((if false = true then
          ({ e with homeScore := some hs, awayScore := some aw } : SportsEvent)
        else e).eventId == eventId) = false from he]
      dsimp only
      exact ih

theorem scoreUpdatedState_frame (s : State) (eventId : String) (hs aw : Rat)
    (ev : SportsEvent) :
    (scoreUpdatedState s eventId hs aw ev).parlays = s.parlays ∧
    (scoreUpdatedState s eventId hs aw ev).parlayLegs = s.parlayLegs ∧
    (scoreUpdatedState s eventId hs aw ev).balances = s.balances ∧
    (scoreUpdatedState s eventId hs aw ev).transactions = s.transactions ∧
    (scoreUpdatedState s eventId hs aw ev).tables = s.tables ∧
    (scoreUpdatedState s eventId hs aw ev).seats = s.seats ∧
    (scoreUpdatedState s eventId hs aw ev).hands = s.hands ∧
    (scoreUpdatedState s eventId hs aw ev).nextId = s.nextId := by
  unfold scoreUpdatedState
  dsimp only
  split <;> exact ⟨rfl, rfl, rfl, rfl, rfl, rfl, rfl, rfl⟩

theorem scoreUpdatedState_dbEvents {s : State} {eventId : String} {hs aw : Rat}
    {ev : SportsEvent} :
    ∀ r ∈ (scoreUpdatedState s eventId hs aw ev).dbEvents,
      r.eventId ≠ eventId → r ∈ s.dbEvents := by
  unfold scoreUpdatedState
  dsimp only
  split
  · intro r hr hne
    obtain ⟨r0, hr0, hfr⟩ := List.mem_map.mp hr
    by_cases hid : (r0.eventId == eventId) = true
    · have hideq : r0.eventId = eventId := by simpa using hid
      rw [if_pos hid] at hfr
      rw [← hfr] at hne
      exact absurd hideq hne
    · rw [if_neg hid] at hfr
      rw [← hfr]
      exact hr0
  · intro r hr hne
    rcases List.mem_append.mp hr with h | h
    · exact h
    · have : r = ⟨eventId, ev.sport, ev.homeTeam, ev.awayTeam, hs, aw, .inProgress⟩ :=
        List.mem_singleton.mp h
      rw [this] at hne
      exact absurd rfl hne

/-- C8: for an event whose cached status is not completed, updateEventScore
succeeds and changes only the score fields of that cached event and the
sports_events row of that event (written with status in-progress): every
parlay, leg, balance, transaction, table, seat and hand is unchanged,
because resolution only fires for a completed cached event and the
score-update path never writes the cached status. -/
theorem claim8_score_update_frame (s : State) (eventId : String) (ev : SportsEvent)
    (homeScore awayScore : Rat)
    (hg : getEvent s eventId = some ev) (hc : ev.status ≠ .completed) :
    isOk (updateEventScore s eventId homeScore awayScore) = true ∧
    (postOf s (updateEventScore s eventId homeScore awayScore)).parlays = s.parlays ∧
    (postOf s (updateEventScore s eventId homeScore awayScore)).parlayLegs = s.parlayLegs ∧
    (postOf s (updateEventScore s eventId homeScore awayScore)).balances = s.balances ∧
    (postOf s (updateEventScore s eventId homeScore awayScore)).transactions =
      s.transactions ∧
    (postOf s (updateEventScore s eventId homeScore awayScore)).tables = s.tables ∧
    (postOf s (updateEventScore s eventId homeScore awayScore)).seats = s.seats ∧
    (postOf s (updateEventScore s eventId homeScore awayScore)).hands = s.hands ∧
    (postOf s (updateEventScore s eventId homeScore awayScore)).nextId = s.nextId ∧
    (postOf s (updateEventScore s eventId homeScore awayScore)).eventCache =
      s.eventCache.map (fun e =>
        if e.eventId == eventId then
          { e with homeScore := some homeScore, awayScore := some awayScore }
        else e) ∧
    (∀ r ∈ (postOf s (updateEventScore s eventId homeScore awayScore)).dbEvents,
      r.eventId ≠ eventId → r ∈ s.dbEvents) := by
  have hok : updateEventScore s eventId homeScore awayScore = .ok ((),
      resolveParlaysForEvent (scoreUpdatedState s eventId homeScore awayScore ev)
        eventId) := by
    unfold updateEventScore
    rw [hg]
    rfl
  have hnoop : resolveParlaysForEvent
      (scoreUpdatedState s eventId homeScore awayScore ev) eventId =
      scoreUpdatedState s eventId homeScore awayScore ev := by
    apply resolve_noop
    intro ev2 hev2
    rw [getEvent_scoreUpdated, hg] at hev2
    simp only [Option.map_some'] at hev2
    rw [← Option.some.inj hev2]
    exact hc
  rw [hok]
  dsimp only [postOf, isOk]
  rw [hnoop]
  have hframe := scoreUpdatedState_frame s eventId homeScore awayScore ev
  exact ⟨rfl, hframe.1, hframe.2.1, hframe.2.2.1, hframe.2.2.2.1, hframe.2.2.2.2.1,
    hframe.2.2.2.2.2.1, hframe.2.2.2.2.2.2.1, hframe.2.2.2.2.2.2.2,
    scoreUpdatedState_eventCache s eventId homeScore awayScore ev,
    scoreUpdatedState_dbEvents⟩

/-- Witness for C8: updating the score of the scheduled sample event from a
fresh state succeeds and leaves balances and parlays untouched. -/
theorem claim8_witness :
    isOk (updateEventScore (initState []) "nfl_001" 7 3) = true ∧
    (postOf (initState []) (updateEventScore (initState []) "nfl_001" 7 3)).balances =
      [] ∧
    (postOf (initState []) (updateEventScore (initState []) "nfl_001" 7 3)).parlays =
      [] := by
  have h := claim8_score_update_frame (initState []) "nfl_001" nflEvent 7 3 rfl
    (by decide)
  exact ⟨h.1, h.2.2.2.1, h.2.1⟩

/-- Witness for C2: on a state with one pending single-leg parlay whose leg
resolved won and whose event is completed, one resolution credits the payout
of 18 onto the balance of 5, and a second resolution changes nothing. -/
theorem claim2_witness :
    balOf (resolveParlaysForEvent c2State "nfl_001").balances 7 = some 23 ∧
    resolveParlaysForEvent (resolveParlaysForEvent c2State "nfl_001") "nfl_001" =
      resolveParlaysForEvent c2State "nfl_001" := by
  constructor
  · have h := claim2_resolve_idempotent.2 c2State "nfl_001" c2Event c2Parlay
      rfl rfl rfl rfl (by decide) (by decide)
    show balOf (resolveParlaysForEvent c2State "nfl_001").balances c2Parlay.userId =
      some 23
    rw [h]
    norm_num [c2State, initState, balOf, c2Parlay]
  · exact claim2_resolve_idempotent.1 c2State "nfl_001"

end CoinKrazy
